import Mathlib

/-!
Shallow embedding of the ValoPro match-tracker bot.

The repository's dynamic (Python) values are modelled by the inductive type
`JVal` (null, bool, int, string, list, dict-as-association-list).  Machine
integers do not occur: Python ints are unbounded, so `Int` is exact.  Code
that can raise an exception is modelled with `Except Unit` / `Option`; code
that cannot raise is modelled by total functions.  Each definition below is
a direct translation of the function of the same name in
`src/utils/vlr_api.py` or `src/cogs/tracker.py`; deliberate modelling
approximations (ASCII-only case folding and digit classes, no underscore
digit separators in `int(str)`, naive timestamps interpreted as UTC) are
noted in comments at the definition they concern.
-/

namespace ValoPro

/-- Model of a Python/JSON runtime value.  Dicts are association lists in
insertion order with unique keys (Python dicts preserve insertion order). -/
inductive JVal where
  | jnull
  | jbool (b : Bool)
  | jint (n : Int)
  | jstr (s : String)
  | jlist (xs : List JVal)
  | jdict (kvs : List (String × JVal))

/-- Python `==` on values (structural; the numeric `True == 1` corner of
Python's cross-type equality is not exercised by any code path modelled
here). -/
def beqJ : JVal → JVal → Bool
  | .jnull, .jnull => true
  | .jbool a, .jbool b => a == b
  | .jint a, .jint b => a == b
  | .jstr a, .jstr b => a == b
  | .jlist as, .jlist bs => beqL as bs
  | .jdict as, .jdict bs => beqD as bs
  | _, _ => false
where
  beqL : List JVal → List JVal → Bool
    | [], [] => true
    | a :: as, b :: bs => beqJ a b && beqL as bs
    | _, _ => false
  beqD : List (String × JVal) → List (String × JVal) → Bool
    | [], [] => true
    | (k1, a) :: as, (k2, b) :: bs => k1 == k2 && beqJ a b && beqD as bs
    | _, _ => false

/-- Python `v is None`. -/
def isNull : JVal → Bool
  | .jnull => true
  | _ => false

/-- Python truthiness: `bool(v)`. -/
def truthy : JVal → Bool
  | .jnull => false
  | .jbool b => b
  | .jint n => n != 0
  | .jstr s => s != ""
  | .jlist xs => !xs.isEmpty
  | .jdict kvs => !kvs.isEmpty

/-- First-match association-list lookup (Python dict lookup; real Python
dicts have unique keys). -/
def lookupK : List (String × JVal) → String → Option JVal
  | [], _ => none
  | (k, v) :: rest, key => if k = key then some v else lookupK rest key

/-- Python `m.get(key, default)`. -/
def pyGetD (kvs : List (String × JVal)) (k : String) (d : JVal) : JVal :=
  (lookupK kvs k).getD d

/-- Python `m.get(key)` (default `None`). -/
def pyGet (kvs : List (String × JVal)) (k : String) : JVal :=
  pyGetD kvs k .jnull

/-- Python `a or b`. -/
def pyOr (a b : JVal) : JVal := if truthy a then a else b

/-- Python `d[key] = v`: overwrite in place if the key exists, else append. -/
def setKey : List (String × JVal) → String → JVal → List (String × JVal)
  | [], k, v => [(k, v)]
  | (k2, v2) :: rest, k, v =>
      if k2 = k then (k, v) :: rest else (k2, v2) :: setKey rest k v

/-- Python `recv.get(key, default)` where `recv` may be any value: raises
`AttributeError` unless `recv` is a dict. -/
def dictGetE (recv : JVal) (k : String) (d : JVal) : Except Unit JVal :=
  match recv with
  | .jdict kvs => .ok (pyGetD kvs k d)
  | _ => .error ()

/-- Python `repr(v)` (string escaping inside `repr` of a `str` is not
modelled; no modelled code path formats a container holding quotes). -/
def pyRepr : JVal → String
  | .jnull => "None"
  | .jbool b => if b then "True" else "False"
  | .jint n => toString n
  | .jstr s => "\x27" ++ s ++ "\x27"
  | .jlist xs => "[" ++ reprL xs ++ "]"
  | .jdict kvs => "\x7b" ++ reprD kvs ++ "\x7d"
where
  reprL : List JVal → String
    | [] => ""
    | [x] => pyRepr x
    | x :: xs => pyRepr x ++ ", " ++ reprL xs
  reprD : List (String × JVal) → String
    | [] => ""
    | [(k, v)] => "\x27" ++ k ++ "\x27: " ++ pyRepr v
    | (k, v) :: kvs => "\x27" ++ k ++ "\x27: " ++ pyRepr v ++ ", " ++ reprD kvs

/-- Python `str(v)` / f-string interpolation of `v`. -/
def pyStr : JVal → String
  | .jstr s => s
  | v => pyRepr v

/-- `\s` in CPython `strptime` patterns (ASCII whitespace; Unicode spaces
not modelled). -/
def isWs (c : Char) : Bool :=
  c = ' ' || c = '\t' || c = '\n' || c = '\r' || c = '\x0b' || c = '\x0c'

/-- Numeric value of an ASCII digit character. -/
def digitVal (c : Char) : Nat := c.toNat - 48

/-- Drop a maximal run of whitespace (regex `\s*` after the first). -/
def dropWs : List Char → List Char
  | [] => []
  | c :: r => if isWs c then dropWs r else c :: r

/-- One-or-more whitespace (a literal blank in a `strptime` format string
matches `\s+`). -/
def ws1 : List Char → Option (List Char)
  | [] => none
  | c :: r => if isWs c then some (dropWs r) else none

/-- Match one expected literal character. -/
def expectC (c : Char) : List Char → Option (List Char)
  | [] => none
  | c2 :: r => if c2 = c then some r else none

/-- CPython `strptime` `%Y`: exactly four digits. -/
def parse4d : List Char → Option (Nat × List Char)
  | c1 :: c2 :: c3 :: c4 :: r =>
      if c1.isDigit && c2.isDigit && c3.isDigit && c4.isDigit then
        some (((digitVal c1 * 10 + digitVal c2) * 10 + digitVal c3) * 10
                + digitVal c4, r)
      else none
  | _ => none

/-- CPython `strptime` `%m`: regex `1[0-2]|0[1-9]|[1-9]`.  For this format
string the regex never needs to backtrack out of a two-digit alternative
(the following literal is never a digit), so a greedy encoding is exact. -/
def parseMon : List Char → Option (Nat × List Char)
  | c1 :: c2 :: r =>
      if c1 = '1' ∧ ('0' ≤ c2 ∧ c2 ≤ '2') then some (10 + digitVal c2, r)
      else if c1 = '0' ∧ ('1' ≤ c2 ∧ c2 ≤ '9') then some (digitVal c2, r)
      else if c1.isDigit ∧ c1 ≠ '0' then some (digitVal c1, c2 :: r)
      else none
  | [c1] => if c1.isDigit ∧ c1 ≠ '0' then some (digitVal c1, []) else none
  | [] => none

/-- CPython `strptime` `%d`: regex `3[01]|[12]\d|0[1-9]|[1-9]`. -/
def parseDay : List Char → Option (Nat × List Char)
  | c1 :: c2 :: r =>
      if c1 = '3' ∧ ('0' ≤ c2 ∧ c2 ≤ '1') then some (30 + digitVal c2, r)
      else if (c1 = '1' ∨ c1 = '2') ∧ c2.isDigit then
        some (digitVal c1 * 10 + digitVal c2, r)
      else if c1 = '0' ∧ ('1' ≤ c2 ∧ c2 ≤ '9') then some (digitVal c2, r)
      else if c1.isDigit ∧ c1 ≠ '0' then some (digitVal c1, c2 :: r)
      else none
  | [c1] => if c1.isDigit ∧ c1 ≠ '0' then some (digitVal c1, []) else none
  | [] => none

/-- CPython `strptime` `%H`: regex `2[0-3]|[0-1]\d|\d`. -/
def parseHour : List Char → Option (Nat × List Char)
  | c1 :: c2 :: r =>
      if c1 = '2' ∧ ('0' ≤ c2 ∧ c2 ≤ '3') then some (20 + digitVal c2, r)
      else if ('0' ≤ c1 ∧ c1 ≤ '1') ∧ c2.isDigit then
        some (digitVal c1 * 10 + digitVal c2, r)
      else if c1.isDigit then some (digitVal c1, c2 :: r)
      else none
  | [c1] => if c1.isDigit then some (digitVal c1, []) else none
  | [] => none

/-- CPython `strptime` `%M`: regex `[0-5]\d|\d`. -/
def parseMin : List Char → Option (Nat × List Char)
  | c1 :: c2 :: r =>
      if ('0' ≤ c1 ∧ c1 ≤ '5') ∧ c2.isDigit then
        some (digitVal c1 * 10 + digitVal c2, r)
      else if c1.isDigit then some (digitVal c1, c2 :: r)
      else none
  | [c1] => if c1.isDigit then some (digitVal c1, []) else none
  | [] => none

/-- CPython `strptime` `%S`: regex `6[0-1]|[0-5]\d|\d` (leap seconds are
matched by the regex and rejected later by the `datetime` constructor). -/
def parseSec : List Char → Option (Nat × List Char)
  | c1 :: c2 :: r =>
      if c1 = '6' ∧ ('0' ≤ c2 ∧ c2 ≤ '1') then some (60 + digitVal c2, r)
      else if ('0' ≤ c1 ∧ c1 ≤ '5') ∧ c2.isDigit then
        some (digitVal c1 * 10 + digitVal c2, r)
      else if c1.isDigit then some (digitVal c1, c2 :: r)
      else none
  | [c1] => if c1.isDigit then some (digitVal c1, []) else none
  | [] => none

/-- `strptime(s, "%Y-%m-%d %H:%M:%S")` up to (but not including) the
`datetime` constructor's range checks: the six matched fields, requiring
the whole input to be consumed ("unconverted data remains" otherwise). -/
def strptimeYmdHms (cs : List Char) : Option (Nat × Nat × Nat × Nat × Nat × Nat) :=
  match parse4d cs with
  | none => none
  | some (y, r1) =>
  match expectC '-' r1 with
  | none => none
  | some r2 =>
  match parseMon r2 with
  | none => none
  | some (mo, r3) =>
  match expectC '-' r3 with
  | none => none
  | some r4 =>
  match parseDay r4 with
  | none => none
  | some (d, r5) =>
  match ws1 r5 with
  | none => none
  | some r6 =>
  match parseHour r6 with
  | none => none
  | some (h, r7) =>
  match expectC ':' r7 with
  | none => none
  | some r8 =>
  match parseMin r8 with
  | none => none
  | some (mi, r9) =>
  match expectC ':' r9 with
  | none => none
  | some r10 =>
  match parseSec r10 with
  | none => none
  | some (sec, r11) =>
  if r11 = [] then some (y, mo, d, h, mi, sec) else none

/-- Gregorian leap year. -/
def isLeap (y : Nat) : Bool :=
  y % 4 = 0 && (y % 100 ≠ 0 || y % 400 = 0)

/-- Length of a month (the `datetime` constructor's day bound). -/
def daysInMonth (y m : Nat) : Nat :=
  if m = 2 then (if isLeap y then 29 else 28)
  else if m = 4 ∨ m = 6 ∨ m = 9 ∨ m = 11 then 30 else 31

/-- Days from 1970-01-01 to the given civil date (standard
days-from-civil algorithm; all intermediate quantities are nonnegative for
years ≥ 1, so `Int` division is floor division here). -/
def daysFromCivil (y m d : Nat) : Int :=
  let yy : Int := if m ≤ 2 then (y : Int) - 1 else (y : Int)
  let era : Int := yy / 400
  let yoe : Int := yy - era * 400
  let mp : Int := if m ≤ 2 then (m : Int) + 9 else (m : Int) - 3
  let doy : Int := (153 * mp + 2) / 5 + (d : Int) - 1
  let doe : Int := yoe * 365 + yoe / 4 - yoe / 100 + doy
  era * 146097 + doe - 719468

/-- `int(datetime(y,mo,d,h,mi,s).timestamp())` with the naive datetime
interpreted as UTC (the spec's stated interpretation; the float result is
exact for the representable year range, so `int` truncation is the
identity). -/
def epochOf (y mo d h mi s : Nat) : Int :=
  86400 * daysFromCivil y mo d + 3600 * (h : Int) + 60 * (mi : Int) + (s : Int)

/-- `int(dt.datetime.strptime(s, "%Y-%m-%d %H:%M:%S").timestamp())`, with
`none` for any `ValueError` (regex mismatch, trailing input, or a field
rejected by the `datetime` constructor: year 0, day beyond month length,
leap second). -/
def strptime_epoch (s : String) : Option Int :=
  match strptimeYmdHms s.toList with
  | none => none
  | some (y, mo, d, h, mi, sec) =>
    if 1 ≤ y ∧ d ≤ daysInMonth y mo ∧ sec ≤ 59 then
      some (epochOf y mo d h mi sec)
    else none

/-- Spec-side renderer: a number as exactly two digits (zero-padded), for
values below 100. -/
def pad2 (n : Nat) : String :=
  String.mk [Nat.digitChar (n / 10), Nat.digitChar (n % 10)]

/-- Spec-side renderer: a number as exactly four digits (zero-padded), for
values below 10000. -/
def pad4 (n : Nat) : String :=
  String.mk [Nat.digitChar (n / 1000), Nat.digitChar (n / 100 % 10),
             Nat.digitChar (n / 10 % 10), Nat.digitChar (n % 10)]

/-- Spec-side renderer of the spec's exact timestamp format
`YYYY-MM-DD HH:MM:SS`. -/
def renderDT (y mo d h mi s : Nat) : String :=
  pad4 y ++ "-" ++ pad2 mo ++ "-" ++ pad2 d ++ " " ++ pad2 h ++ ":"
    ++ pad2 mi ++ ":" ++ pad2 s

/-- `parse_unix` from `src/cogs/tracker.py`: `None` passes through as
`None`; ints (including bools — `isinstance(True, int)` holds in Python)
are returned unchanged; strings are parsed with
`strptime("%Y-%m-%d %H:%M:%S")`; anything else makes `strptime` raise
`TypeError`, which the bare `except` turns into `None`. -/
def parse_unix : JVal → JVal
  | .jnull => .jnull
  | .jbool b => .jbool b
  | .jint n => .jint n
  | .jstr s =>
      match strptime_epoch s with
      | some n => .jint n
      | none => .jnull
  | _ => .jnull

/-- `int(s)` for a string: optional surrounding ASCII whitespace, optional
sign, one or more ASCII digits (underscore separators and Unicode digits
are not modelled; no modelled code path feeds them in). -/
def pyParseInt (s : String) : Option Int :=
  let cs := ((s.toList.dropWhile fun c => isWs c).reverse.dropWhile
              fun c => isWs c).reverse
  match cs with
  | '+' :: ds => (natOfDigits ds).map Int.ofNat
  | '-' :: ds => (natOfDigits ds).map fun n => -(n : Int)
  | ds => (natOfDigits ds).map Int.ofNat
where
  natOfDigits : List Char → Option Nat
    | [] => none
    | ds =>
        if ds.all Char.isDigit then
          some (ds.foldl (fun a c => a * 10 + digitVal c) 0)
        else none

/-- Python `int(v)`: ints unchanged, bools to 0/1, strings parsed, anything
else raises `TypeError`. -/
def pyInt : JVal → Except Unit Int
  | .jint n => .ok n
  | .jbool b => .ok (if b then 1 else 0)
  | .jstr s =>
      match pyParseInt s with
      | some n => .ok n
      | none => .error ()
  | _ => .error ()

/-- The segment-list extraction shared by `get_upcoming` and `get_live` in
`src/utils/vlr_api.py`:
`data.get("data", \x7b\x7d).get("segments", []) or []` applied to the decoded
JSON payload.  The inner `.get` raises `AttributeError` when the value of
the `"data"` key is present but not a dict (e.g. `null`). -/
def segmentsOf (v : JVal) : Except Unit JVal :=
  match v with
  | .jdict kvs =>
      match pyGetD kvs "data" (.jdict []) with
      | .jdict inner => .ok (pyOr (pyGetD inner "segments" (.jlist [])) (.jlist []))
      | _ => .error ()
  | _ => .error ()

/-- `normalize_match` from `src/utils/vlr_api.py`, on a dict argument.
Each nested `.get` and the `int(...)` coercion can raise; the result dict
lists its keys in the order of the source's dict literal. -/
def normalize_match (m : List (String × JVal)) : Except Unit (List (String × JVal)) :=
  match dictGetE (pyGetD m "team1" (.jdict [])) "name" .jnull with
  | .error e => .error e
  | .ok t1n =>
  match dictGetE (pyGetD m "team2" (.jdict [])) "name" .jnull with
  | .error e => .error e
  | .ok t2n =>
  match dictGetE (pyGetD m "tournament" (.jdict [])) "name" .jnull with
  | .error e => .error e
  | .ok evn =>
  match dictGetE (pyGetD m "tournament" (.jdict [])) "region" .jnull with
  | .error e => .error e
  | .ok regn =>
  let team1 := pyOr (pyOr t1n (pyGetD m "team_1" (.jstr ""))) (.jstr "")
  let team2 := pyOr (pyOr t2n (pyGetD m "team_2" (.jstr ""))) (.jstr "")
  let event := pyOr (pyOr evn (pyGetD m "event" (.jstr ""))) (.jstr "")
  let status := pyGetD m "status" (.jstr "")
  let time_unix := pyOr (pyOr (pyGet m "time_unix") (pyGet m "unix_time")) (.jint 0)
  let match_id := pyOr (pyOr (pyGet m "match_id") (pyGet m "id")) (.jstr "")
  let url := pyOr (pyGet m "url")
    (if truthy match_id then .jstr ("https://www.vlr.gg/" ++ pyStr match_id)
     else .jstr "")
  let score := pyOr (pyGet m "score") (pyGetD m "maps" (.jlist []))
  let region := pyOr (pyOr regn (pyGetD m "region" (.jstr ""))) (.jstr "")
  match (if truthy time_unix then pyInt time_unix else .ok 0) with
  | .error e => .error e
  | .ok tval =>
    .ok [("team1", team1), ("team2", team2), ("event", event),
         ("status", status), ("time_unix", .jint tval),
         ("match_id", match_id), ("url", url), ("score", score),
         ("region", region)]

/-- The permissive per-field fallback inside `safe_normalize`
(`src/cogs/tracker.py`), taken when `normalize_match` raises.  The keys are
inserted in the source's assignment order; `score` is present only when
both `score1` and `score2` are non-`None`, `time_unix` only when the
coerced value is truthy, `live` only when a live flag was passed. -/
def fallbackNorm (m : List (String × JVal)) (live_flag : Option Bool) :
    List (String × JVal) :=
  let team1 := pyOr (pyOr (pyGet m "team1") (pyGet m "team_1")) (.jstr "?")
  let team2 := pyOr (pyOr (pyGet m "team2") (pyGet m "team_2")) (.jstr "?")
  let ev := pyOr (pyOr (pyGet m "event") (pyGet m "match_event")) (.jstr "")
  let reg := pyOr (pyGet m "region") (.jstr "")
  let url := pyOr (pyOr (pyGet m "url") (pyGet m "match_page")) (.jstr "")
  let s1 := pyGet m "score1"
  let s2 := pyGet m "score2"
  let scorePart :=
    if !isNull s1 && !isNull s2 then
      [("score", JVal.jstr (pyStr s1 ++ "-" ++ pyStr s2))]
    else []
  let tu0 := pyGet m "time_unix"
  let tu := if truthy tu0 then tu0 else parse_unix (pyGet m "unix_timestamp")
  let tuPart := if truthy tu then [("time_unix", tu)] else []
  let livePart :=
    match live_flag with
    | some b => [("live", JVal.jbool b)]
    | none => []
  [("team1", team1), ("team2", team2), ("event", ev), ("region", reg),
   ("url", url)] ++ scorePart ++ tuPart ++ livePart

/-- `safe_normalize` from `src/cogs/tracker.py`: `None` (dropped) for
non-dict input; otherwise the strict `normalize_match` result (plus the
`live` flag when given), or the permissive fallback when `normalize_match`
raises. -/
def safe_normalize (v : JVal) (live_flag : Option Bool) :
    Option (List (String × JVal)) :=
  match v with
  | .jdict m =>
      match normalize_match m with
      | .ok nm =>
          some (match live_flag with
                | some b => setKey nm "live" (.jbool b)
                | none => nm)
      | .error _ => some (fallbackNorm m live_flag)
  | _ => none

/-- `str.lower` (ASCII case folding; Python folds full Unicode, which no
modelled data exercises). -/
def strLower (s : String) : String := String.mk (s.toList.map Char.toLower)

/-- Contiguous-prefix check on character lists. -/
def isPfxL : List Char → List Char → Bool
  | [], _ => true
  | _ :: _, [] => false
  | a :: as, b :: bs => a == b && isPfxL as bs

/-- Python `needle in hay` on strings: contiguous substring. -/
def strContains (hay needle : String) : Bool :=
  subAt needle.toList hay.toList
where
  subAt (nee : List Char) : List Char → Bool
    | [] => nee.isEmpty
    | c :: t => isPfxL nee (c :: t) || subAt nee t

/-- `(f or "").lower()` inside `filter_matches._ok`: raises unless the
truthy-or-defaulted field is a string. -/
def lowerJF (v : JVal) : Except Unit String :=
  match pyOr v (.jstr "") with
  | .jstr s => .ok (strLower s)
  | _ => .error ()

/-- `any(needle in (f or "").lower() for f in fields)`: the generator is
lazy, so fields after the first hit are never lowered. -/
def anyLower (nl : String) : List JVal → Except Unit Bool
  | [] => .ok false
  | f :: fs =>
      match lowerJF f with
      | .error e => .error e
      | .ok h => if strContains h nl then .ok true else anyLower nl fs

/-- `_ok` inside `filter_matches`: builds the four-field list (source
order: event, team1, team2, region) and tests it lazily; raises on a
non-dict record. -/
def okRecord (nl : String) (m : JVal) : Except Unit Bool :=
  match m with
  | .jdict kvs =>
      anyLower nl
        [pyGetD kvs "event" (.jstr ""), pyGetD kvs "team1" (.jstr ""),
         pyGetD kvs "team2" (.jstr ""), pyGetD kvs "region" (.jstr "")]
  | _ => .error ()

/-- `filter_matches` from `src/utils/vlr_api.py`: lowers the needle once,
then keeps exactly the records `_ok` accepts, in order. -/
def filter_matches (ms : List JVal) (needle : String) :
    Except Unit (List JVal) :=
  go (strLower needle) ms
where
  go (nl : String) : List JVal → Except Unit (List JVal)
    | [] => .ok []
    | m :: rest =>
        match okRecord nl m with
        | .error e => .error e
        | .ok b =>
            match go nl rest with
            | .error e => .error e
            | .ok l => .ok (if b then m :: l else l)

/-- `ALERT_LEAD_MINUTES * 60`, the lead window in seconds. -/
def leadWindowSeconds (alertLeadMinutes : Int) : Int := alertLeadMinutes * 60

/-- Values Python can put in a `set` (lists and dicts are unhashable and
make `in` / `add` raise `TypeError`). -/
def hashableJ : JVal → Bool
  | .jlist _ => false
  | .jdict _ => false
  | _ => true

/-- Python `x in announced` for the announced-id set (modelled as the list
of added ids). -/
def memJ (x : JVal) (l : List JVal) : Bool := l.any fun y => beqJ x y

/-- State the `announce_loop` body threads through one tick: the embeds
posted so far (as their normalized dicts) and the announced-id set. -/
structure TickSt where
  posted : List (List (String × JVal))
  announced : List JVal

/-- One iteration of the `for m in raw` loop inside `announce_loop`
(`src/cogs/tracker.py`): normalize, skip when dropped / falsy dict / falsy
`time_unix`, compute `seconds = int(nm['time_unix']) - now`, and inside
the lead window post unless the (truthy) id was already announced, then
record the id.  `Except.error` models an exception reaching the loop's
surrounding `try`. -/
def tickStep (now lead : Int) (st : TickSt) (m : JVal) : Except Unit TickSt :=
  match safe_normalize m none with
  | none => .ok st
  | some nm =>
    let tuv := pyGetD nm "time_unix" .jnull
    if nm.isEmpty || !truthy tuv then .ok st
    else
      match pyInt tuv with
      | .error e => .error e
      | .ok t =>
        let seconds := t - now
        if 0 ≤ seconds ∧ seconds ≤ lead then
          let mid := pyGetD nm "match_id" .jnull
          if truthy mid then
            if !hashableJ mid then .error ()
            else if memJ mid st.announced then .ok st
            else
              .ok { posted := st.posted ++ [nm],
                    announced := st.announced ++ [mid] }
          else .ok { posted := st.posted ++ [nm], announced := st.announced }
        else .ok st

/-- One scheduler tick over a fetched batch: the loop body per record, with
the surrounding `try`/`except` swallowing any exception (state reached so
far stands; the rest of the batch is skipped). -/
def runTick (now lead : Int) : List JVal → TickSt → TickSt
  | [], st => st
  | m :: rest, st =>
      match tickStep now lead st m with
      | .error _ => st
      | .ok st2 => runTick now lead rest st2

/-- A sequence of scheduler ticks at the given clock readings, all seeing
the same fetched batch. -/
def runTicks (lead : Int) (raws : List JVal) : List Int → TickSt → TickSt
  | [], st => st
  | n :: ns, st => runTicks lead raws ns (runTick n lead raws st)

/-- All of the given keys are present in the record. -/
def hasKeys (nm : List (String × JVal)) (ks : List String) : Prop :=
  ∀ k ∈ ks, (lookupK nm k).isSome = true

/-- Spec-side: the string content of a field of a normalized record
(absent or non-string fields read as `""`). -/
def fieldStr (kvs : List (String × JVal)) (k : String) : String :=
  match lookupK kvs k with
  | some (.jstr s) => s
  | _ => ""

/-- Spec-side restatement of the filter predicate, from the spec's words:
the needle appears case-insensitively as a substring of at least one of
`team1`, `team2`, `event`, `region`. -/
def specMatchB (needle : String) (m : JVal) : Bool :=
  match m with
  | .jdict kvs =>
      (["team1", "team2", "event", "region"] : List String).any fun k =>
        strContains (strLower (fieldStr kvs k)) (strLower needle)
  | _ => false

/-- A record as `filter_matches` receives them from normalization: a dict
whose four searched fields are strings when present. -/
def OkShape (m : JVal) : Prop :=
  ∃ kvs, m = .jdict kvs ∧
    ∀ k ∈ (["team1", "team2", "event", "region"] : List String),
      lookupK kvs k = none ∨ ∃ s, lookupK kvs k = some (.jstr s)

/-- Spec-side: a record in the canonical normalized shape (the key set and
order `normalize_match` itself produces, with string display fields and an
integer timestamp). -/
def canonicalRec (t1 t2 e reg u : String) (mid stt sc : JVal) (n : Int) :
    List (String × JVal) :=
  [("team1", .jstr t1), ("team2", .jstr t2), ("event", .jstr e),
   ("status", stt), ("time_unix", .jint n), ("match_id", mid),
   ("url", .jstr u), ("score", sc), ("region", .jstr reg)]

/-! ### Lemmas and claim theorems -/

theorem lookupK_append (a b : List (String × JVal)) (k : String) :
    lookupK (a ++ b) k
      = match lookupK a k with
        | some v => some v
        | none => lookupK b k := by
  induction a with
  | nil => rfl
  | cons p rest ih =>
    obtain ⟨k2, v2⟩ := p
    by_cases h : k2 = k <;> simp [lookupK, h, ih]

theorem toList_mk (cs : List Char) : (String.mk cs).toList = cs := rfl

theorem digitChar_isDigit {k : Nat} (h : k < 10) :
    (Nat.digitChar k).isDigit = true := by
  interval_cases k <;> rfl

theorem digitVal_digitChar {k : Nat} (h : k < 10) :
    digitVal (Nat.digitChar k) = k := by
  interval_cases k <;> rfl

theorem isWs_digitChar {k : Nat} (h : k < 10) :
    isWs (Nat.digitChar k) = false := by
  interval_cases k <;> rfl

theorem parse4d_pad {y : Nat} (hy : y ≤ 9999) (r : List Char) :
    parse4d ((pad4 y).toList ++ r) = some (y, r) := by
  have e1 : y / 1000 < 10 := by omega
  have e2 : y / 100 % 10 < 10 := by omega
  have e3 : y / 10 % 10 < 10 := by omega
  have e4 : y % 10 < 10 := by omega
  have hval : ((y / 1000 * 10 + y / 100 % 10) * 10 + y / 10 % 10) * 10
      + y % 10 = y := by omega
  simp [pad4, toList_mk, parse4d, digitChar_isDigit e1, digitChar_isDigit e2,
    digitChar_isDigit e3, digitChar_isDigit e4, digitVal_digitChar e1,
    digitVal_digitChar e2, digitVal_digitChar e3, digitVal_digitChar e4, hval]

theorem parseMon_pad {mo : Nat} (h1 : 1 ≤ mo) (h2 : mo ≤ 12) (r : List Char) :
    parseMon ((pad2 mo).toList ++ r) = some (mo, r) := by
  interval_cases mo <;> rfl

theorem parseDay_pad {d : Nat} (h1 : 1 ≤ d) (h2 : d ≤ 31) (r : List Char) :
    parseDay ((pad2 d).toList ++ r) = some (d, r) := by
  interval_cases d <;> rfl

theorem parseHour_pad {h : Nat} (hh : h ≤ 23) (r : List Char) :
    parseHour ((pad2 h).toList ++ r) = some (h, r) := by
  interval_cases h <;> rfl

theorem parseMin_pad {mi : Nat} (hmi : mi ≤ 59) (r : List Char) :
    parseMin ((pad2 mi).toList ++ r) = some (mi, r) := by
  interval_cases mi <;> rfl

theorem parseSec_pad {s : Nat} (hs : s ≤ 59) (r : List Char) :
    parseSec ((pad2 s).toList ++ r) = some (s, r) := by
  interval_cases s <;> rfl

theorem daysInMonth_le {y m : Nat} : daysInMonth y m ≤ 31 := by
  unfold daysInMonth
  split
  · split <;> omega
  · split <;> omega

theorem renderDT_toList (y mo d h mi s : Nat) :
    (renderDT y mo d h mi s).toList
      = (pad4 y).toList ++ '-' :: ((pad2 mo).toList ++ '-'
          :: ((pad2 d).toList ++ ' ' :: ((pad2 h).toList ++ ':'
          :: ((pad2 mi).toList ++ ':' :: (pad2 s).toList)))) := by
  rfl

theorem ws1_sp (t : List Char) : ws1 (' ' :: t) = some (dropWs t) := by
  have hsp : isWs ' ' = true := rfl
  simp [ws1, hsp]

theorem dropWs_pad2 {n : Nat} (hn : n < 100) (r : List Char) :
    dropWs ((pad2 n).toList ++ r) = (pad2 n).toList ++ r := by
  have hw : isWs (Nat.digitChar (n / 10)) = false := isWs_digitChar (by omega)
  simp [pad2, toList_mk, dropWs, hw]

theorem strptime_render {y mo d h mi s : Nat}
    (hy1 : 1 ≤ y) (hy2 : y ≤ 9999) (hmo1 : 1 ≤ mo) (hmo2 : mo ≤ 12)
    (hd1 : 1 ≤ d) (hd2 : d ≤ 31) (hh : h ≤ 23) (hmi : mi ≤ 59)
    (hs : s ≤ 59) :
    strptimeYmdHms (renderDT y mo d h mi s).toList
      = some (y, mo, d, h, mi, s) := by
  rw [renderDT_toList]
  unfold strptimeYmdHms
  rw [parse4d_pad hy2]
  dsimp only [expectC]
  simp only [if_pos]
  rw [parseMon_pad hmo1 hmo2]
  dsimp only [expectC]
  simp only [if_pos]
  rw [parseDay_pad hd1 hd2]
  dsimp only
  rw [ws1_sp, dropWs_pad2 (by omega)]
  dsimp only
  rw [parseHour_pad hh]
  dsimp only [expectC]
  simp only [if_pos]
  rw [parseMin_pad hmi]
  dsimp only [expectC]
  simp only [if_pos]
  rw [← List.append_nil (pad2 s).toList, parseSec_pad hs]
  rfl

/-- Claim C8: timestamp coercion is total: an int (Python bools included —
`isinstance(True, int)`) passes through unchanged; a string in the exact
`YYYY-MM-DD HH:MM:SS` format with in-range fields parses to epoch seconds
(UTC interpretation); `None`, lists and dicts — the remaining value
shapes — yield `None`; totality itself is structural (`parse_unix` is a
total function because every exception path of the source is caught). -/
theorem claim_C8 :
    (∀ n : Int, parse_unix (.jint n) = .jint n)
    ∧ (∀ b : Bool, parse_unix (.jbool b) = .jbool b)
    ∧ (∀ y mo d h mi s : Nat,
        1 ≤ y → y ≤ 9999 → 1 ≤ mo → mo ≤ 12 → 1 ≤ d →
        d ≤ daysInMonth y mo → h ≤ 23 → mi ≤ 59 → s ≤ 59 →
        parse_unix (.jstr (renderDT y mo d h mi s))
          = .jint (epochOf y mo d h mi s))
    ∧ parse_unix .jnull = .jnull
    ∧ (∀ xs, parse_unix (.jlist xs) = .jnull)
    ∧ (∀ kvs, parse_unix (.jdict kvs) = .jnull) := by
  refine ⟨fun n => rfl, fun b => rfl, ?_, rfl, fun xs => rfl, fun kvs => rfl⟩
  intro y mo d h mi s hy1 hy2 hmo1 hmo2 hd1 hd2 hh hmi hs
  have hd31 : d ≤ 31 := le_trans hd2 daysInMonth_le
  show (match strptime_epoch (renderDT y mo d h mi s) with
        | some n => JVal.jint n
        | none => JVal.jnull) = JVal.jint (epochOf y mo d h mi s)
  unfold strptime_epoch
  rw [strptime_render hy1 hy2 hmo1 hmo2 hd1 hd31 hh hmi hs]
  simp [hy1, hd2, hs]

/-- Witness for C8 at a concrete date. -/
theorem claim_C8_witness :
    parse_unix (.jstr (renderDT 2023 5 17 12 30 45))
      = .jint (epochOf 2023 5 17 12 30 45) :=
  claim_C8.2.2.1 2023 5 17 12 30 45 (by decide) (by decide) (by decide)
    (by decide) (by decide) (by decide) (by decide) (by decide) (by decide)

/-- Claim C9: normalization never raises: non-record input is reported
not-applicable (`none`, dropped), and for every record-shaped input the
result is a record — the strict path's exceptions are caught and the
permissive fallback is total (each extraction individually guarded). -/
theorem claim_C9 :
    (∀ (v : JVal) (lf : Option Bool), (∀ kvs, v ≠ .jdict kvs) →
        safe_normalize v lf = none)
    ∧ (∀ (kvs : List (String × JVal)) (lf : Option Bool),
        (safe_normalize (.jdict kvs) lf).isSome = true) := by
  constructor
  · intro v lf h
    cases v with
    | jdict kvs => exact absurd rfl (h kvs)
    | jnull => rfl
    | jbool b => rfl
    | jint n => rfl
    | jstr s => rfl
    | jlist xs => rfl
  · intro kvs lf
    unfold safe_normalize
    dsimp only
    rcases hn : normalize_match kvs with e | nm <;> simp

/-- Witness for C9: a string input is dropped; a record input survives. -/
theorem claim_C9_witness :
    safe_normalize (.jstr "not a record") none = none
      ∧ (safe_normalize (.jdict [("team1", .jstr "Alpha")]) none).isSome
          = true :=
  ⟨claim_C9.1 (.jstr "not a record") none (fun _ h => JVal.noConfusion h),
   claim_C9.2 [("team1", .jstr "Alpha")] none⟩

/-- Claim C10 (amended): the segment extraction returns `[]` when `data`
is absent, and when `segments` is absent or null under a dict `data`; on
success it never returns null.  But when the `data` key is present with a
non-dict value (e.g. null), the extraction raises — the original claim's
"either is null" direction fails for `data`. -/
theorem claim_C10 :
    (∀ kvs, lookupK kvs "data" = none →
        segmentsOf (.jdict kvs) = .ok (.jlist []))
    ∧ (∀ kvs inner, lookupK kvs "data" = some (.jdict inner) →
        lookupK inner "segments" = none →
        segmentsOf (.jdict kvs) = .ok (.jlist []))
    ∧ (∀ kvs inner, lookupK kvs "data" = some (.jdict inner) →
        lookupK inner "segments" = some .jnull →
        segmentsOf (.jdict kvs) = .ok (.jlist []))
    ∧ (∀ kvs r, segmentsOf (.jdict kvs) = .ok r → r ≠ .jnull) := by
  refine ⟨?_, ?_, ?_, ?_⟩
  · intro kvs h
    simp [segmentsOf, pyGetD, h, pyOr, truthy, lookupK]
  · intro kvs inner h1 h2
    simp [segmentsOf, pyGetD, h1, h2, pyOr, truthy]
  · intro kvs inner h1 h2
    simp [segmentsOf, pyGetD, h1, h2, pyOr, truthy]
  · intro kvs r h
    unfold segmentsOf at h
    dsimp only at h
    cases hd : pyGetD kvs "data" (.jdict []) <;> rw [hd] at h <;>
      dsimp only at h
    case jdict inner =>
      injection h with h2
      subst h2
      unfold pyOr
      split
      next ht =>
        intro hc
        rw [hc] at ht
        simp [truthy] at ht
      next => simp
    all_goals exact Except.noConfusion h

/-- Witness for C10 at concrete payloads. -/
theorem claim_C10_witness :
    segmentsOf (.jdict [("x", .jint 1)]) = .ok (.jlist [])
      ∧ segmentsOf (.jdict [("data", .jdict [("segments", .jnull)])])
          = .ok (.jlist []) :=
  ⟨claim_C10.1 [("x", .jint 1)] rfl,
   claim_C10.2.2.1 [("data", .jdict [("segments", .jnull)])]
     [("segments", .jnull)] rfl rfl⟩

/-- Counterexample for C10 as stated: a payload whose `data` key is null
makes the extraction raise instead of returning `[]`. -/
theorem claim_C10_counterexample :
    segmentsOf (.jdict [("data", .jnull)]) = .error ()
      ∧ (Except.error () : Except Unit JVal) ≠ .ok (.jlist []) :=
  ⟨rfl, fun h => Except.noConfusion h⟩

theorem normalize_ok_shape {kvs nm : List (String × JVal)}
    (h : normalize_match kvs = .ok nm) :
    ∃ t1 t2 ev st tu mid url sc reg,
      nm = [("team1", t1), ("team2", t2), ("event", ev), ("status", st),
            ("time_unix", JVal.jint tu), ("match_id", mid), ("url", url),
            ("score", sc), ("region", reg)] := by
  unfold normalize_match at h
  dsimp only at h
  repeat' split at h
  all_goals first
    | exact Except.noConfusion h
    | · injection h with h2
        exact ⟨_, _, _, _, _, _, _, _, _, h2.symm⟩

theorem lookupK_setKey_isSome {nm : List (String × JVal)} {k k2 : String}
    {v : JVal} (h : (lookupK nm k).isSome = true) :
    (lookupK (setKey nm k2 v) k).isSome = true := by
  induction nm with
  | nil => simp [lookupK] at h
  | cons p rest ih =>
    obtain ⟨k3, v3⟩ := p
    by_cases h3 : k3 = k2
    · subst h3
      simp only [setKey, if_pos rfl]
      by_cases h4 : k3 = k <;> simp [lookupK, h4] at h ⊢
      exact h
    · simp only [setKey, if_neg h3]
      by_cases h4 : k3 = k <;> simp [lookupK, h4] at h ⊢
      exact ih h

theorem lookupK_setKey_ne {nm : List (String × JVal)} {k k2 : String}
    {v : JVal} (h : k2 ≠ k) :
    lookupK (setKey nm k2 v) k = lookupK nm k := by
  induction nm with
  | nil => simp [setKey, lookupK, h]
  | cons p rest ih =>
    obtain ⟨k3, v3⟩ := p
    by_cases h3 : k3 = k2
    · subst h3
      simp [setKey, lookupK, h]
    · simp only [setKey, if_neg h3]
      by_cases h4 : k3 = k <;> simp [lookupK, h4, ih]

/-- Claim C1 (amended): for record input, normalization never drops the
record; a strict-path result carries the full canonical field set (plus
`status`); but a fallback-path result is guaranteed only `team1`, `team2`,
`event`, `region`, `url` — `match_id`, `status` (and conditionally `score`
and `time_unix`) can be missing, so the original "full canonical field set
or dropped" claim fails. -/
theorem claim_C1 (kvs : List (String × JVal)) (lf : Option Bool)
    (nm : List (String × JVal))
    (h : safe_normalize (.jdict kvs) lf = some nm) :
    hasKeys nm ["team1", "team2", "event", "region", "url"]
    ∧ (∀ nm0, normalize_match kvs = .ok nm0 →
        hasKeys nm ["team1", "team2", "event", "status", "time_unix",
                    "match_id", "url", "score", "region"]) := by
  unfold safe_normalize at h
  dsimp only at h
  rcases hn : normalize_match kvs with e | nm0 <;> rw [hn] at h
  · -- fallback path
    injection h with h2
    subst h2
    constructor
    · intro k hk
      unfold fallbackNorm
      fin_cases hk <;> simp [lookupK]
    · intro nm0 h3
      exact Except.noConfusion h3
  · -- strict path
    obtain ⟨t1, t2, ev, st, tu, mid, url, sc, reg, hshape⟩ :=
      normalize_ok_shape hn
    subst hshape
    have hnine : hasKeys nm ["team1", "team2", "event", "status",
        "time_unix", "match_id", "url", "score", "region"] := by
      intro k hk
      cases lf <;> injection h with h2 <;> subst h2
      · fin_cases hk <;> simp [lookupK]
      · fin_cases hk <;>
          exact lookupK_setKey_isSome (by simp [lookupK])
    refine ⟨?_, fun _ _ => hnine⟩
    intro k hk
    fin_cases hk <;> exact hnine _ (by simp)

/-- Witness for C1 on a fallback-path record. -/
theorem claim_C1_witness :
    hasKeys [("team1", .jstr "Alpha"), ("team2", .jstr "?"),
             ("event", .jstr ""), ("region", .jstr ""), ("url", .jstr "")]
        ["team1", "team2", "event", "region", "url"]
    ∧ (∀ nm0, normalize_match [("team1", JVal.jstr "Alpha")] = .ok nm0 →
        hasKeys [("team1", .jstr "Alpha"), ("team2", .jstr "?"),
                 ("event", .jstr ""), ("region", .jstr ""),
                 ("url", .jstr "")]
            ["team1", "team2", "event", "status", "time_unix", "match_id",
             "url", "score", "region"]) :=
  claim_C1 [("team1", .jstr "Alpha")] none _ rfl

/-- Counterexample for C1 as stated: a record-shaped input that is not
dropped, yet whose normalized record has no `match_id` field at all. -/
theorem claim_C1_counterexample :
    (safe_normalize (.jdict [("team1", .jstr "Alpha")]) none).map
        (fun nm => (lookupK nm "match_id").isSome) = some false := rfl

/-- Claim C2 (amended): a record missing `team1`/`team2` (under both key
spellings) is never dropped for that reason; but the default substituted
for the missing side depends on the path: the permissive fallback yields
`"?"`, while the strict path — which the original claim covers too —
yields `""`. -/
theorem claim_C2 (kvs : List (String × JVal)) (lf : Option Bool)
    (h1 : lookupK kvs "team1" = none) (h2 : lookupK kvs "team_1" = none)
    (h3 : lookupK kvs "team2" = none) (h4 : lookupK kvs "team_2" = none) :
    ∃ nm, safe_normalize (.jdict kvs) lf = some nm
      ∧ (∀ nm0, normalize_match kvs = .ok nm0 →
          lookupK nm "team1" = some (.jstr "")
            ∧ lookupK nm "team2" = some (.jstr ""))
      ∧ (∀ er, normalize_match kvs = .error er →
          lookupK nm "team1" = some (.jstr "?")
            ∧ lookupK nm "team2" = some (.jstr "?")) := by
  unfold safe_normalize
  dsimp only
  rcases hn : normalize_match kvs with e | nm0
  · refine ⟨fallbackNorm kvs lf, rfl, ?_, ?_⟩
    · intro nm0 hc
      exact Except.noConfusion hc
    · intro er _
      unfold fallbackNorm
      simp [lookupK, pyGet, pyGetD, h1, h2, h3, h4, pyOr, truthy]
  · have hteam : lookupK nm0 "team1" = some (.jstr "")
        ∧ lookupK nm0 "team2" = some (.jstr "") := by
      unfold normalize_match at hn
      dsimp only at hn
      rw [show pyGetD kvs "team1" (.jdict []) = .jdict [] by
            simp [pyGetD, h1],
          show pyGetD kvs "team_1" (.jstr "") = .jstr "" by
            simp [pyGetD, h2],
          show pyGetD kvs "team2" (.jdict []) = .jdict [] by
            simp [pyGetD, h3],
          show pyGetD kvs "team_2" (.jstr "") = .jstr "" by
            simp [pyGetD, h4]] at hn
      dsimp only [dictGetE] at hn
      repeat' split at hn
      all_goals first
        | exact Except.noConfusion hn
        | · injection hn with h5
            subst h5
            constructor <;> simp [lookupK, pyOr, truthy, pyGetD]
    refine ⟨_, rfl, ?_, ?_⟩
    · intro nm1 he
      cases lf
      · exact hteam
      · exact ⟨by rw [lookupK_setKey_ne (by decide)]; exact hteam.1,
               by rw [lookupK_setKey_ne (by decide)]; exact hteam.2⟩
    · intro er he
      exact Except.noConfusion he

/-- Witness for C2: a record with neither team key, on the strict path. -/
theorem claim_C2_witness :
    ∃ nm, safe_normalize (.jdict [("event", JVal.jstr "EV")]) none = some nm
      ∧ (∀ nm0, normalize_match [("event", JVal.jstr "EV")] = .ok nm0 →
          lookupK nm "team1" = some (.jstr "")
            ∧ lookupK nm "team2" = some (.jstr ""))
      ∧ (∀ er, normalize_match [("event", JVal.jstr "EV")] = .error er →
          lookupK nm "team1" = some (.jstr "?")
            ∧ lookupK nm "team2" = some (.jstr "?")) :=
  claim_C2 [("event", JVal.jstr "EV")] none rfl rfl rfl rfl

/-- Counterexample for C2 as stated: the empty record (both team fields
absent) is normalized on the strict path with `team1 = ""`, not `"?"`. -/
theorem claim_C2_counterexample :
    (safe_normalize (.jdict []) none).map (fun nm => lookupK nm "team1")
        = some (some (.jstr ""))
      ∧ JVal.jstr "" ≠ JVal.jstr "?" :=
  ⟨rfl, by simp⟩

/-- The `score` field of a fallback-path record: present exactly when both
`score1` and `score2` are non-`None`, with the composed string value. -/
theorem fallback_score (kvs : List (String × JVal)) (lf : Option Bool) :
    lookupK (fallbackNorm kvs lf) "score"
      = if isNull (pyGet kvs "score1") = false
            ∧ isNull (pyGet kvs "score2") = false
        then some (.jstr (pyStr (pyGet kvs "score1") ++ "-"
                           ++ pyStr (pyGet kvs "score2")))
        else none := by
  unfold fallbackNorm
  by_cases hc : (!isNull (pyGet kvs "score1")
      && !isNull (pyGet kvs "score2")) = true
  · have h1 : isNull (pyGet kvs "score1") = false := by
      revert hc
      cases isNull (pyGet kvs "score1") <;>
        cases isNull (pyGet kvs "score2") <;> simp
    have h2 : isNull (pyGet kvs "score2") = false := by
      revert hc
      cases isNull (pyGet kvs "score1") <;>
        cases isNull (pyGet kvs "score2") <;> simp
    simp [lookupK, hc, h1, h2]
  · have h12 : ¬(isNull (pyGet kvs "score1") = false
        ∧ isNull (pyGet kvs "score2") = false) := by
      revert hc
      cases isNull (pyGet kvs "score1") <;>
        cases isNull (pyGet kvs "score2") <;> simp
    simp only [Bool.not_eq_true] at hc
    simp only [lookupK, hc, if_neg h12, if_false, List.nil_append]
    simp [lookupK]
    split <;> cases lf <;>
      (try simp [lookupK]) <;>
      (try (split <;> simp [lookupK]))

/-- Claim C3 (amended): the `"score1-score2"` composition happens only on
the permissive fallback path, where it requires both fields non-`None` and
otherwise omits the `score` field; the strict path ignores `score1` and
`score2` entirely, passing through a truthy `score` field unchanged and
otherwise the `maps` list (default `[]`). -/
theorem claim_C3 (kvs : List (String × JVal)) (lf : Option Bool) :
    (∀ nm0, normalize_match kvs = .ok nm0 →
        (truthy (pyGet kvs "score") = true →
          lookupK nm0 "score" = some (pyGet kvs "score"))
        ∧ (truthy (pyGet kvs "score") = false →
          lookupK nm0 "score" = some (pyGetD kvs "maps" (.jlist []))))
    ∧ (∀ er, normalize_match kvs = .error er →
        (isNull (pyGet kvs "score1") = false →
          isNull (pyGet kvs "score2") = false →
          lookupK (fallbackNorm kvs lf) "score"
            = some (.jstr (pyStr (pyGet kvs "score1") ++ "-"
                            ++ pyStr (pyGet kvs "score2"))))
        ∧ (isNull (pyGet kvs "score1") = true
            ∨ isNull (pyGet kvs "score2") = true →
          lookupK (fallbackNorm kvs lf) "score" = none)) := by
  constructor
  · intro nm0 hn
    unfold normalize_match at hn
    dsimp only at hn
    repeat' split at hn
    all_goals first
      | exact Except.noConfusion hn
      | · injection hn with h5
          subst h5
          constructor
          · intro ht
            simp [lookupK, pyOr, ht]
          · intro ht
            simp [lookupK, pyOr, ht]
  · intro er _
    constructor
    · intro hs1 hs2
      rw [fallback_score kvs lf, if_pos ⟨hs1, hs2⟩]
    · intro hor
      rw [fallback_score kvs lf, if_neg]
      rintro ⟨c1, c2⟩
      rcases hor with h | h
      · rw [h] at c1
        exact Bool.noConfusion c1
      · rw [h] at c2
        exact Bool.noConfusion c2

/-- Witness for C3: fallback composition on a record whose `normalize_match`
raises (string `team1`) and which carries numeric `score1`/`score2`. -/
theorem claim_C3_witness :
    lookupK
        (fallbackNorm
          [("team1", JVal.jstr "A"), ("score1", JVal.jint 1),
           ("score2", JVal.jint 0)] none) "score"
      = some (.jstr (pyStr (JVal.jint 1) ++ "-" ++ pyStr (JVal.jint 0))) :=
  ((claim_C3 [("team1", JVal.jstr "A"), ("score1", JVal.jint 1),
      ("score2", JVal.jint 0)] none).2 () rfl).1 rfl rfl

/-- Counterexample for C3 as stated: a record with explicit `score1` and
`score2` that takes the strict path gets `score = []` (the `maps` default),
not the composed string. -/
theorem claim_C3_counterexample :
    (safe_normalize (.jdict [("score1", .jint 1), ("score2", .jint 2)])
        none).map (fun nm => lookupK nm "score")
      = some (some (.jlist []))
      ∧ JVal.jlist [] ≠ .jstr "1-2" :=
  ⟨rfl, by simp⟩

theorem strContains_empty (hay : String) : strContains hay "" = true := by
  unfold strContains
  cases hay.toList <;> rfl

theorem pyGetD_str_field {kvs : List (String × JVal)} {k : String}
    (h : lookupK kvs k = none ∨ ∃ s, lookupK kvs k = some (.jstr s)) :
    pyGetD kvs k (.jstr "") = .jstr (fieldStr kvs k) := by
  rcases h with h | ⟨s, h⟩ <;> simp [pyGetD, fieldStr, h]

theorem lowerJF_str (s : String) : lowerJF (.jstr s) = .ok (strLower s) := by
  by_cases hs : s = ""
  · subst hs
    rfl
  · have ht : truthy (JVal.jstr s) = true := by simp [truthy, hs]
    unfold lowerJF
    rw [show pyOr (JVal.jstr s) (.jstr "") = .jstr s from by simp [pyOr, ht]]

theorem anyLower_four (nl : String) (a b c d : String) :
    anyLower nl [.jstr a, .jstr b, .jstr c, .jstr d]
      = .ok (strContains (strLower a) nl || strContains (strLower b) nl
              || strContains (strLower c) nl
              || strContains (strLower d) nl) := by
  cases h1 : strContains (strLower a) nl <;>
    cases h2 : strContains (strLower b) nl <;>
    cases h3 : strContains (strLower c) nl <;>
    cases h4 : strContains (strLower d) nl <;>
    simp [anyLower, lowerJF_str, h1, h2, h3, h4]

theorem okRecord_spec {needle : String} {m : JVal} (h : OkShape m) :
    okRecord (strLower needle) m = .ok (specMatchB needle m) := by
  obtain ⟨kvs, rfl, hf⟩ := h
  unfold okRecord
  dsimp only
  rw [pyGetD_str_field (hf "event" (by simp)),
      pyGetD_str_field (hf "team1" (by simp)),
      pyGetD_str_field (hf "team2" (by simp)),
      pyGetD_str_field (hf "region" (by simp)),
      anyLower_four]
  unfold specMatchB
  simp only [List.any_cons, List.any_nil, Bool.or_false]
  cases strContains (strLower (fieldStr kvs "team1")) (strLower needle) <;>
    cases strContains (strLower (fieldStr kvs "team2")) (strLower needle) <;>
    cases strContains (strLower (fieldStr kvs "event")) (strLower needle) <;>
    cases strContains (strLower (fieldStr kvs "region")) (strLower needle) <;>
    rfl

/-- `filter_matches.go` against the spec-worded predicate, for records
with string search fields. -/
theorem filter_go_spec (nd : String) (l : List JVal)
    (h : ∀ m ∈ l, OkShape m) :
    filter_matches.go (strLower nd) l = .ok (l.filter (specMatchB nd)) := by
  induction l with
  | nil => rfl
  | cons m rest ih =>
    have hm : OkShape m := h m (by simp)
    have hrest : ∀ m2 ∈ rest, OkShape m2 := fun m2 hm2 => h m2 (by simp [hm2])
    unfold filter_matches.go
    rw [okRecord_spec hm, ih hrest, List.filter_cons]

/-- Claim C7: `filter_matches` returns exactly the order-preserving,
duplication-preserving sublist of records in which the needle occurs
case-insensitively as a substring of at least one of `team1`, `team2`,
`event`, `region` (stated against the independently worded predicate
`specMatchB`); the empty needle keeps every record. -/
theorem claim_C7 (ms : List JVal) (needle : String)
    (h : ∀ m ∈ ms, OkShape m) :
    filter_matches ms needle = .ok (ms.filter (specMatchB needle))
    ∧ filter_matches ms "" = .ok ms := by
  constructor
  · exact filter_go_spec needle ms h
  · have he : filter_matches ms "" = .ok (ms.filter (specMatchB "")) :=
      filter_go_spec "" ms h
    rw [he]
    congr 1
    rw [List.filter_eq_self]
    intro m hm
    obtain ⟨kvs, rfl, _⟩ := h m hm
    simp [specMatchB, show strLower "" = "" from rfl, strContains_empty]

/-- Witness for C7 on a concrete two-record list. -/
theorem claim_C7_witness :
    filter_matches
        [.jdict [("team1", .jstr "Sentinels"), ("team2", .jstr "LOUD"),
                 ("event", .jstr "Champs"), ("region", .jstr "NA")],
         .jdict [("team1", .jstr "FNC"), ("event", .jstr "Masters")]]
        "loud"
      = .ok (List.filter (specMatchB "loud")
          [.jdict [("team1", .jstr "Sentinels"), ("team2", .jstr "LOUD"),
                   ("event", .jstr "Champs"), ("region", .jstr "NA")],
           .jdict [("team1", .jstr "FNC"), ("event", .jstr "Masters")]])
    ∧ filter_matches
        [.jdict [("team1", .jstr "Sentinels"), ("team2", .jstr "LOUD"),
                 ("event", .jstr "Champs"), ("region", .jstr "NA")],
         .jdict [("team1", .jstr "FNC"), ("event", .jstr "Masters")]]
        ""
      = .ok [.jdict [("team1", .jstr "Sentinels"), ("team2", .jstr "LOUD"),
                     ("event", .jstr "Champs"), ("region", .jstr "NA")],
             .jdict [("team1", .jstr "FNC"), ("event", .jstr "Masters")]] :=
  claim_C7 _ "loud" (by
    intro m hm
    simp only [List.mem_cons, List.mem_singleton, List.not_mem_nil] at hm
    rcases hm with rfl | rfl | h
    · exact ⟨_, rfl, by
        intro k hk
        fin_cases hk <;>
          first
            | exact Or.inl rfl
            | exact Or.inr ⟨_, rfl⟩⟩
    · exact ⟨_, rfl, by
        intro k hk
        fin_cases hk <;>
          first
            | exact Or.inl rfl
            | exact Or.inr ⟨_, rfl⟩⟩
    · cases h)

theorem pyOr2_str (a c : String) :
    pyOr (pyOr (.jstr a) .jnull) (.jstr c)
      = .jstr (if a = "" then c else a) := by
  by_cases h : a = "" <;> simp [pyOr, truthy, h]

theorem pyOr_str (a c : String) :
    pyOr (.jstr a) (.jstr c) = .jstr (if a = "" then c else a) := by
  by_cases h : a = "" <;> simp [pyOr, truthy, h]

theorem if_empty_default (e : String) : (if e = "" then "" else e) = e := by
  split <;> simp_all

theorem qm_default_ne (t : String) :
    ((if t = "" then ("?" : String) else t) = "") = False := by
  split <;> simp_all

theorem fallback_canonical (t1 t2 e reg u : String) (mid stt sc : JVal)
    (n : Int) :
    fallbackNorm (canonicalRec t1 t2 e reg u mid stt sc n) none
      = [("team1", .jstr (if t1 = "" then "?" else t1)),
         ("team2", .jstr (if t2 = "" then "?" else t2)),
         ("event", .jstr e), ("region", .jstr reg), ("url", .jstr u)]
        ++ (if n = 0 then [] else [("time_unix", JVal.jint n)]) := by
  by_cases hn0 : n = 0
  · subst hn0
    simp [fallbackNorm, canonicalRec, pyGet, pyGetD, lookupK, pyOr2_str,
      pyOr_str, if_empty_default, isNull, truthy, parse_unix]
  · have hbne : (n != 0) = true := by simpa using hn0
    simp [fallbackNorm, canonicalRec, pyGet, pyGetD, lookupK, pyOr2_str,
      pyOr_str, if_empty_default, isNull, truthy, parse_unix, hn0, hbne]

/-- Claim C4: normalization is idempotent on records already in canonical
normalized shape: feeding `safe_normalize`'s output on such a record back
through `safe_normalize` returns that output unchanged.  (Both
applications take the permissive fallback path, because the canonical
record's string `team1` makes the strict decode raise; the first
application is already a fixed point.) -/
theorem claim_C4 (t1 t2 e reg u : String) (mid stt sc : JVal) (n : Int) :
    ((safe_normalize (.jdict (canonicalRec t1 t2 e reg u mid stt sc n))
          none).bind
        fun nm => safe_normalize (.jdict nm) none)
      = safe_normalize (.jdict (canonicalRec t1 t2 e reg u mid stt sc n))
          none := by
  have h1 : safe_normalize
        (.jdict (canonicalRec t1 t2 e reg u mid stt sc n)) none
      = some (fallbackNorm (canonicalRec t1 t2 e reg u mid stt sc n) none) :=
    rfl
  rw [h1]
  show safe_normalize
      (.jdict (fallbackNorm (canonicalRec t1 t2 e reg u mid stt sc n) none))
      none
    = some (fallbackNorm (canonicalRec t1 t2 e reg u mid stt sc n) none)
  rw [fallback_canonical]
  by_cases hn0 : n = 0
  · rw [if_pos hn0, List.append_nil]
    show some (fallbackNorm
        [("team1", .jstr (if t1 = "" then "?" else t1)),
         ("team2", .jstr (if t2 = "" then "?" else t2)),
         ("event", .jstr e), ("region", .jstr reg), ("url", .jstr u)] none)
      = _
    congr 1
    simp [fallbackNorm, pyGet, pyGetD, lookupK, pyOr2_str, pyOr_str,
      qm_default_ne, if_empty_default, isNull, truthy, parse_unix]
  · rw [if_neg hn0]
    have hbne : (n != 0) = true := by simpa using hn0
    show some (fallbackNorm
        ([("team1", .jstr (if t1 = "" then "?" else t1)),
          ("team2", .jstr (if t2 = "" then "?" else t2)),
          ("event", .jstr e), ("region", .jstr reg), ("url", .jstr u)]
          ++ [("time_unix", JVal.jint n)]) none)
      = _
    congr 1
    simp [fallbackNorm, pyGet, pyGetD, lookupK, pyOr2_str, pyOr_str,
      qm_default_ne, if_empty_default, isNull, truthy, parse_unix, hbne]


theorem memJ_append (x : JVal) (a b : List JVal) :
    memJ x (a ++ b) = (memJ x a || memJ x b) := by
  simp [memJ, List.any_append]

theorem beqJ_jstr_self (s : String) : beqJ (.jstr s) (.jstr s) = true := by
  simp [beqJ]

theorem tickStep_cases {now lead : Int} {st st2 : TickSt} {m : JVal}
    (h : tickStep now lead st m = .ok st2) :
    st2 = st
    ∨ ∃ nm, safe_normalize m none = some nm
        ∧ st2.posted = st.posted ++ [nm]
        ∧ ((truthy (pyGetD nm "match_id" .jnull) = true
              ∧ memJ (pyGetD nm "match_id" .jnull) st.announced = false
              ∧ st2.announced
                  = st.announced ++ [pyGetD nm "match_id" .jnull])
           ∨ (truthy (pyGetD nm "match_id" .jnull) = false
              ∧ st2.announced = st.announced)) := by
  unfold tickStep at h
  cases hsn : safe_normalize m none with
  | none =>
    rw [hsn] at h
    dsimp only at h
    injection h with h2
    exact Or.inl h2.symm
  | some nm =>
    rw [hsn] at h
    dsimp only at h
    by_cases hskip :
        (nm.isEmpty || !truthy (pyGetD nm "time_unix" .jnull)) = true
    · rw [if_pos hskip] at h
      injection h with h2
      exact Or.inl h2.symm
    · rw [if_neg hskip] at h
      cases hint : pyInt (pyGetD nm "time_unix" .jnull) with
      | error e =>
        rw [hint] at h
        exact Except.noConfusion h
      | ok t =>
        rw [hint] at h
        dsimp only at h
        by_cases hw : 0 ≤ t - now ∧ t - now ≤ lead
        · rw [if_pos hw] at h
          by_cases hmid : truthy (pyGetD nm "match_id" .jnull) = true
          · rw [if_pos hmid] at h
            by_cases hhash :
                (!hashableJ (pyGetD nm "match_id" .jnull)) = true
            · rw [if_pos hhash] at h
              exact Except.noConfusion h
            · rw [if_neg hhash] at h
              by_cases hmem :
                  memJ (pyGetD nm "match_id" .jnull) st.announced = true
              · rw [if_pos hmem] at h
                injection h with h2
                exact Or.inl h2.symm
              · rw [if_neg hmem] at h
                injection h with h2
                subst h2
                exact Or.inr ⟨nm, rfl, rfl,
                  Or.inl ⟨hmid, by simpa using hmem, rfl⟩⟩
          · rw [if_neg hmid] at h
            injection h with h2
            subst h2
            exact Or.inr ⟨nm, rfl, rfl,
              Or.inr ⟨by simpa using hmid, rfl⟩⟩
        · rw [if_neg hw] at h
          injection h with h2
          exact Or.inl h2.symm

theorem tickStep_announced_mono {now lead : Int} {st st2 : TickSt}
    {m x : JVal} (h : tickStep now lead st m = .ok st2)
    (hx : memJ x st.announced = true) : memJ x st2.announced = true := by
  rcases tickStep_cases h with rfl | ⟨nm, _, _, hd⟩
  · exact hx
  · rcases hd with ⟨_, _, ha⟩ | ⟨_, ha⟩ <;> rw [ha] <;>
      simp [memJ_append, hx]

theorem runTick_announced_mono {now lead : Int} {x : JVal}
    (raws : List JVal) (st : TickSt) (hx : memJ x st.announced = true) :
    memJ x (runTick now lead raws st).announced = true := by
  induction raws generalizing st with
  | nil => exact hx
  | cons m rest ih =>
    unfold runTick
    cases htk : tickStep now lead st m with
    | error e => exact hx
    | ok st3 => exact ih st3 (tickStep_announced_mono htk hx)

theorem runTick_no_reannounce {now lead : Int} {s : String} (hs : s ≠ "")
    (raws : List JVal) (st : TickSt)
    (h : memJ (.jstr s) st.announced = true) :
    ∀ nm2 ∈ (runTick now lead raws st).posted,
      nm2 ∈ st.posted ∨ pyGetD nm2 "match_id" .jnull ≠ .jstr s := by
  induction raws generalizing st with
  | nil => exact fun nm2 h2 => Or.inl h2
  | cons m rest ih =>
    intro nm2 h2
    unfold runTick at h2
    cases htk : tickStep now lead st m with
    | error e =>
      rw [htk] at h2
      exact Or.inl h2
    | ok st3 =>
      rw [htk] at h2
      dsimp only at h2
      have hmono : memJ (.jstr s) st3.announced = true :=
        tickStep_announced_mono htk h
      rcases ih st3 hmono nm2 h2 with hin | hne
      · rcases tickStep_cases htk with hst | ⟨nm, hsn, hp, hd⟩
        · rw [hst] at hin
          exact Or.inl hin
        · rw [hp] at hin
          rcases List.mem_append.mp hin with h3 | h3
          · exact Or.inl h3
          · have hnm : nm2 = nm := by simpa using h3
            subst hnm
            rcases hd with ⟨hmid, hmem, _⟩ | ⟨hmid, _⟩
            · right
              intro heq
              rw [heq] at hmem
              simp [hmem] at h
            · right
              intro heq
              rw [heq] at hmid
              simp [truthy, hs] at hmid
      · exact Or.inr hne

theorem runTicks_no_reannounce {lead : Int} {s : String} (hs : s ≠ "")
    (raws : List JVal) (nows : List Int) (st : TickSt)
    (h : memJ (.jstr s) st.announced = true) :
    ∀ nm2 ∈ (runTicks lead raws nows st).posted,
      nm2 ∈ st.posted ∨ pyGetD nm2 "match_id" .jnull ≠ .jstr s := by
  induction nows generalizing st with
  | nil => exact fun nm2 h2 => Or.inl h2
  | cons n ns ih =>
    intro nm2 h2
    unfold runTicks at h2
    have hmono : memJ (.jstr s) (runTick n lead raws st).announced = true :=
      runTick_announced_mono raws st h
    rcases ih (runTick n lead raws st) hmono nm2 h2 with hin | hne
    · exact runTick_no_reannounce hs raws st h nm2 hin
    · exact Or.inr hne

theorem tickStep_hit {now lead t : Int} {m : JVal}
    {nm : List (String × JVal)} {tv : JVal} {s : String} {st : TickSt}
    (h1 : safe_normalize m none = some nm)
    (h2 : pyGetD nm "time_unix" .jnull = tv)
    (h3 : truthy tv = true)
    (h4 : pyInt tv = .ok t)
    (h5 : pyGetD nm "match_id" .jnull = .jstr s)
    (h6 : s ≠ "")
    (h7 : memJ (.jstr s) st.announced = false)
    (h8 : 0 ≤ t - now) (h9 : t - now ≤ lead) :
    tickStep now lead st m
      = .ok ⟨st.posted ++ [nm], st.announced ++ [.jstr s]⟩ := by
  have hne : nm.isEmpty = false := by
    cases nm with
    | nil => exact absurd h5 (by simp [pyGetD, lookupK])
    | cons a l => rfl
  unfold tickStep
  rw [h1]
  dsimp only
  rw [h2, h5, h4]
  rw [if_neg (by simp [hne, h3])]
  dsimp only
  rw [if_pos ⟨h8, h9⟩]
  rw [if_pos (show truthy (JVal.jstr s) = true by simp [truthy, h6])]
  rw [if_neg (show ¬(!hashableJ (JVal.jstr s)) = true by simp [hashableJ])]
  rw [if_neg (by simp [h7])]

theorem tickStep_skip_mem {now lead t : Int} {m : JVal}
    {nm : List (String × JVal)} {tv : JVal} {s : String} {st : TickSt}
    (h1 : safe_normalize m none = some nm)
    (h2 : pyGetD nm "time_unix" .jnull = tv)
    (h3 : truthy tv = true)
    (h4 : pyInt tv = .ok t)
    (h5 : pyGetD nm "match_id" .jnull = .jstr s)
    (h6 : s ≠ "")
    (h7 : memJ (.jstr s) st.announced = true)
    (h8 : 0 ≤ t - now) (h9 : t - now ≤ lead) :
    tickStep now lead st m = .ok st := by
  have hne : nm.isEmpty = false := by
    cases nm with
    | nil => exact absurd h5 (by simp [pyGetD, lookupK])
    | cons a l => rfl
  unfold tickStep
  rw [h1]
  dsimp only
  rw [h2, h5, h4]
  rw [if_neg (by simp [hne, h3])]
  dsimp only
  rw [if_pos ⟨h8, h9⟩]
  rw [if_pos (show truthy (JVal.jstr s) = true by simp [truthy, h6])]
  rw [if_neg (show ¬(!hashableJ (JVal.jstr s)) = true by simp [hashableJ])]
  rw [if_pos h7]

theorem tickStep_out {now lead t : Int} {m : JVal}
    {nm : List (String × JVal)} {tv : JVal} {s : String} {st : TickSt}
    (h1 : safe_normalize m none = some nm)
    (h2 : pyGetD nm "time_unix" .jnull = tv)
    (h3 : truthy tv = true)
    (h4 : pyInt tv = .ok t)
    (h5 : pyGetD nm "match_id" .jnull = .jstr s)
    (hw : ¬(0 ≤ t - now ∧ t - now ≤ lead)) :
    tickStep now lead st m = .ok st := by
  have hne : nm.isEmpty = false := by
    cases nm with
    | nil => exact absurd h5 (by simp [pyGetD, lookupK])
    | cons a l => rfl
  unfold tickStep
  rw [h1]
  dsimp only
  rw [h2, h4]
  rw [if_neg (by simp [hne, h3])]
  dsimp only
  rw [if_neg hw]

theorem runTick_single {now lead : Int} {m : JVal} {st st2 : TickSt}
    (h : tickStep now lead st m = .ok st2) :
    runTick now lead [m] st = st2 := by
  unfold runTick
  rw [h]
  rfl


/-- Claim C5: across two consecutive ticks that both see the same match
(non-empty `match_id`, start time inside the lead window at both clock
readings, time-to-start shrinking), exactly one announcement for that
match is posted; and once an id is in the announced set, no later sequence
of ticks ever posts an embed carrying that id again. -/
theorem claim_C5 (lead now1 now2 t : Int) (m : JVal)
    (nm : List (String × JVal)) (tv : JVal) (s : String) (ann : List JVal)
    (h1 : safe_normalize m none = some nm)
    (h2 : pyGetD nm "time_unix" .jnull = tv)
    (h3 : truthy tv = true)
    (h4 : pyInt tv = .ok t)
    (h5 : pyGetD nm "match_id" .jnull = .jstr s)
    (h6 : s ≠ "")
    (h7 : memJ (.jstr s) ann = false)
    (h8 : 0 ≤ t - now1) (h9 : t - now1 ≤ lead)
    (h10 : 0 ≤ t - now2) (h11 : t - now2 ≤ lead)
    (h12 : now1 ≤ now2) :
    (runTicks lead [m] [now1, now2] ⟨[], ann⟩).posted = [nm]
    ∧ ∀ (raws : List JVal) (nows : List Int) (st : TickSt),
        memJ (.jstr s) st.announced = true →
        ∀ nm2 ∈ (runTicks lead raws nows st).posted,
          nm2 ∈ st.posted ∨ pyGetD nm2 "match_id" .jnull ≠ .jstr s := by
  constructor
  · have e1 : runTick now1 lead [m] ⟨[], ann⟩
        = ⟨[] ++ [nm], ann ++ [.jstr s]⟩ :=
      runTick_single (tickStep_hit h1 h2 h3 h4 h5 h6 h7 h8 h9)
    have hmem2 : memJ (.jstr s)
        (TickSt.mk ([] ++ [nm]) (ann ++ [.jstr s])).announced = true := by
      simp [memJ_append, memJ, beqJ_jstr_self]
    have e2 : runTick now2 lead [m] ⟨[] ++ [nm], ann ++ [.jstr s]⟩
        = ⟨[] ++ [nm], ann ++ [.jstr s]⟩ :=
      runTick_single (tickStep_skip_mem h1 h2 h3 h4 h5 h6 hmem2 h10 h11)
    show (runTick now2 lead [m] (runTick now1 lead [m] ⟨[], ann⟩)).posted
        = [nm]
    rw [e1, e2]
    rfl
  · intro raws nows st hmem nm2 h2m
    exact runTicks_no_reannounce h6 raws nows st hmem nm2 h2m

/-- Claim C6: with the lead window `ALERT_LEAD_MINUTES * 60`, a
not-yet-announced match with known start time is announced at
`secondsUntilStart` exactly equal to the window, and not announced at
window + 1 nor at negative `secondsUntilStart` (the tick state is
unchanged in those cases). -/
theorem claim_C6 (alm t : Int) (halm : 0 ≤ alm) (m : JVal)
    (nm : List (String × JVal)) (tv : JVal) (s : String) (ann : List JVal)
    (h1 : safe_normalize m none = some nm)
    (h2 : pyGetD nm "time_unix" .jnull = tv)
    (h3 : truthy tv = true)
    (h4 : pyInt tv = .ok t)
    (h5 : pyGetD nm "match_id" .jnull = .jstr s)
    (h6 : s ≠ "")
    (h7 : memJ (.jstr s) ann = false) :
    (∀ now, t - now = leadWindowSeconds alm →
        (runTick now (leadWindowSeconds alm) [m] ⟨[], ann⟩).posted = [nm])
    ∧ (∀ now, t - now = leadWindowSeconds alm + 1 →
        runTick now (leadWindowSeconds alm) [m] ⟨[], ann⟩ = ⟨[], ann⟩)
    ∧ (∀ now, t - now < 0 →
        runTick now (leadWindowSeconds alm) [m] ⟨[], ann⟩ = ⟨[], ann⟩) := by
  have hl : 0 ≤ leadWindowSeconds alm := by
    unfold leadWindowSeconds
    omega
  refine ⟨?_, ?_, ?_⟩
  · intro now hw
    rw [runTick_single (tickStep_hit h1 h2 h3 h4 h5 h6 h7
      (by omega) (by omega))]
    rfl
  · intro now hw
    exact runTick_single (tickStep_out h1 h2 h3 h4 h5 (by omega))
  · intro now hw
    exact runTick_single (tickStep_out h1 h2 h3 h4 h5 (by omega))

/-- Witness for C5 at a concrete match and two tick times. -/
theorem claim_C5_witness :
    (runTicks 1800
        [.jdict [("match_id", .jstr "m1"), ("time_unix", .jint 1000)]]
        [0, 500] ⟨[], []⟩).posted
      = [[("team1", .jstr ""), ("team2", .jstr ""), ("event", .jstr ""),
          ("status", .jstr ""), ("time_unix", .jint 1000),
          ("match_id", .jstr "m1"),
          ("url", .jstr "https://www.vlr.gg/m1"), ("score", .jlist []),
          ("region", .jstr "")]] :=
  (claim_C5 1800 0 500 1000
    (.jdict [("match_id", .jstr "m1"), ("time_unix", .jint 1000)])
    [("team1", .jstr ""), ("team2", .jstr ""), ("event", .jstr ""),
     ("status", .jstr ""), ("time_unix", .jint 1000),
     ("match_id", .jstr "m1"), ("url", .jstr "https://www.vlr.gg/m1"),
     ("score", .jlist []), ("region", .jstr "")]
    (.jint 1000) "m1" []
    rfl rfl rfl rfl rfl (by decide) rfl (by decide) (by decide)
    (by decide) (by decide) (by decide)).1

/-- Witness for C6 at the boundary values (window 30 minutes, start time
1000: announced at `now = -800`, not at `now = -801`, not at
`now = 1001`). -/
theorem claim_C6_witness :
    (runTick (-800) (leadWindowSeconds 30)
        [.jdict [("match_id", .jstr "m1"), ("time_unix", .jint 1000)]]
        ⟨[], []⟩).posted
      = [[("team1", .jstr ""), ("team2", .jstr ""), ("event", .jstr ""),
          ("status", .jstr ""), ("time_unix", .jint 1000),
          ("match_id", .jstr "m1"),
          ("url", .jstr "https://www.vlr.gg/m1"), ("score", .jlist []),
          ("region", .jstr "")]]
    ∧ runTick (-801) (leadWindowSeconds 30)
        [.jdict [("match_id", .jstr "m1"), ("time_unix", .jint 1000)]]
        ⟨[], []⟩ = ⟨[], []⟩
    ∧ runTick 1001 (leadWindowSeconds 30)
        [.jdict [("match_id", .jstr "m1"), ("time_unix", .jint 1000)]]
        ⟨[], []⟩ = ⟨[], []⟩ :=
  ⟨(claim_C6 30 1000 (by decide)
      (.jdict [("match_id", .jstr "m1"), ("time_unix", .jint 1000)])
      [("team1", .jstr ""), ("team2", .jstr ""), ("event", .jstr ""),
       ("status", .jstr ""), ("time_unix", .jint 1000),
       ("match_id", .jstr "m1"), ("url", .jstr "https://www.vlr.gg/m1"),
       ("score", .jlist []), ("region", .jstr "")]
      (.jint 1000) "m1" []
      rfl rfl rfl rfl rfl (by decide) rfl).1 (-800) (by decide),
   (claim_C6 30 1000 (by decide)
      (.jdict [("match_id", .jstr "m1"), ("time_unix", .jint 1000)])
      [("team1", .jstr ""), ("team2", .jstr ""), ("event", .jstr ""),
       ("status", .jstr ""), ("time_unix", .jint 1000),
       ("match_id", .jstr "m1"), ("url", .jstr "https://www.vlr.gg/m1"),
       ("score", .jlist []), ("region", .jstr "")]
      (.jint 1000) "m1" []
      rfl rfl rfl rfl rfl (by decide) rfl).2.1 (-801) (by decide),
   (claim_C6 30 1000 (by decide)
      (.jdict [("match_id", .jstr "m1"), ("time_unix", .jint 1000)])
      [("team1", .jstr ""), ("team2", .jstr ""), ("event", .jstr ""),
       ("status", .jstr ""), ("time_unix", .jint 1000),
       ("match_id", .jstr "m1"), ("url", .jstr "https://www.vlr.gg/m1"),
       ("score", .jlist []), ("region", .jstr "")]
      (.jint 1000) "m1" []
      rfl rfl rfl rfl rfl (by decide) rfl).2.2 1001 (by decide)⟩


end ValoPro
